import Mathlib

/-!
Verification development for the apple-slicer repository (slicer.py, apple.py).

The two Python source files are shallowly embedded below:
* Python `Decimal` values are modelled as exact rationals (`ℚ`); the 28
  significant digit context rounding of Python's decimal module is abstracted
  to exact arithmetic, which is the arithmetic the reports are meant to obey.
* Python dictionaries are modelled as association lists in insertion order
  (`lookupA` / `insertA` / `updateA` mirror `d[k]`, `d[k] = v`, and
  read-modify-write of `d[k]`).
* `sys.exit(1)` and uncaught exceptions both abort the run; they are modelled
  as `Except`/`Option` failures.  Distinct fatal messages get distinct error
  constructors where the spec distinguishes them; the various uncaught
  exceptions inside a data row (IndexError, decimal parse error, 0/0 division)
  are merged into the single constructor `malformedRow`.
* Character-level string operations are written on `String.toList` so that all
  definitions reduce on concrete inputs.
-/

namespace Slicer

/-- Membership-style substring test on character lists, modelling Python's
`needle in hay`.  An empty needle is contained in everything. -/
def isPre : List Char → List Char → Bool
  | [], _ => true
  | _ :: _, [] => false
  | a :: as, b :: bs => a = b && isPre as bs

def containsSub (needle : List Char) : List Char → Bool
  | [] => needle.isEmpty
  | c :: t => isPre needle (c :: t) || containsSub needle t

/-- Python `needle in hay` on strings. -/
def strContains (hay needle : String) : Bool :=
  containsSub needle.toList hay.toList

/-- Python `s.lower()` restricted to ASCII case mapping (the localized region
keywords of the source only ever differ from their lowercase forms in ASCII
letters). -/
def lowerChars (s : String) : List Char :=
  s.toList.map Char.toLower

/-- Python `needle.lower() in hay.lower()`. -/
def strContainsLower (hay needle : String) : Bool :=
  containsSub (lowerChars needle) (lowerChars hay)

/-- Value of a digit string, most significant digit first. -/
def digitsToNat (cs : List Char) : ℕ :=
  cs.foldl (fun a c => a * 10 + (c.toNat - 48)) 0

/-- Python `Decimal(s)` for the plain sign/digits/point literals appearing in
the reports (exponents and special values never occur there and are rejected).
Returns `none` where `Decimal` raises. -/
def decimalOfChars (cs : List Char) : Option ℚ :=
  let signed : ℚ × List Char :=
    match cs with
    | '-' :: t => (-1, t)
    | '+' :: t => (1, t)
    | t => (1, t)
  let intPart := signed.2.takeWhile Char.isDigit
  let rest := signed.2.dropWhile Char.isDigit
  match rest with
  | [] =>
    if intPart.isEmpty then none
    else some (signed.1 * (digitsToNat intPart : ℚ))
  | '.' :: frac =>
    if frac.all Char.isDigit ∧ (¬ intPart.isEmpty ∨ ¬ frac.isEmpty) then
      some (signed.1 * ((digitsToNat intPart : ℚ)
        + (digitsToNat frac : ℚ) / (10 : ℚ) ^ frac.length))
    else none
  | _ => none

/-- Python `Decimal(fields[i].replace(',', ''))`, with `none` for both a bad
index and a malformed decimal literal (each raises in the source). -/
def getDec (fields : List String) (i : ℕ) : Option ℚ :=
  match fields[i]? with
  | none => none
  | some s => decimalOfChars (s.toList.filter (fun c => c ≠ ','))

/-- Association list lookup, modelling Python `d.get(k)` / `k in d`. -/
def lookupA {α : Type} : List (String × α) → String → Option α
  | [], _ => none
  | (k', v) :: t, k => if k' = k then some v else lookupA t k

/-- Python `d[k] = v`: overwrite in place if the key exists (dict insertion
order keeps the original position), otherwise append. -/
def insertA {α : Type} : List (String × α) → String → α → List (String × α)
  | [], k, v => [(k, v)]
  | (k', v') :: t, k, v =>
    if k' = k then (k, v) :: t else (k', v') :: insertA t k v

/-- Python read-modify-write `d[k] = f(d.get(k, dflt))`. -/
def updateA {α : Type} : List (String × α) → String → α → (α → α) → List (String × α)
  | [], k, dflt, f => [(k, f dflt)]
  | (k', v') :: t, k, dflt, f =>
    if k' = k then (k', f v') :: t else (k', v') :: updateA t k dflt f

/-- One row of the exchange-rate table: `result[currency]` in
`parse_currency_data` (slicer.py line 183). -/
structure CurrencyRecord where
  exchange_rate : ℚ
  tax_factor : ℚ
  adjustments : ℚ
deriving DecidableEq, Repr

abbrev CurrencyTable := List (String × CurrencyRecord)

/-- Localized spellings of the world regions with their own USD exchange rate
(slicer.py lines 55-59), in source order. -/
def usd_regions_localizations : List (String × List String) :=
  [("AP", ["Pacif", "Pacíf", "Pazif"]),
   ("LL", ["Latin", "Latein"]),
   ("WW", ["of World", "du monde", "der Welt", "del mondo", "del mundo"])]

/-- Region tags, i.e. `usd_regions_localizations.keys()`. -/
def regionTags : List String :=
  usd_regions_localizations.map Prod.fst

/-- Rate-table-side USD disambiguation (slicer.py lines 148-152): scan the
row's free-text label case-insensitively for a localized region keyword; the
first matching region wins, no match leaves the bare code. -/
def tableCurrencyKey (label : String) : String :=
  match usd_regions_localizations.find?
      (fun rl => rl.2.any (fun sp => strContainsLower label sp)) with
  | some rl => "USD" ++ rl.1
  | none => "USD"

/-- Sales-side USD disambiguation (slicer.py lines 229-233): the first region
whose `_<tag>.` marker occurs in the sales report's filename wins; no match
leaves the bare code. -/
def salesCurrencyKey (filename currency : String) : String :=
  if currency = "USD" then
    match regionTags.find? (fun r => strContains filename ("_" ++ r ++ ".")) with
    | some r => "USD" ++ r
    | none => "USD"
  else currency

/-- Regex `\(([A-Z]{3})\)$` of slicer.py line 141: the label must end in a
three-uppercase-letter code in parentheses. -/
def extractCurrency (s : String) : Option String :=
  match s.toList.reverse with
  | ')' :: c3 :: c2 :: c1 :: '(' :: _ =>
    if c1.isUpper ∧ c2.isUpper ∧ c3.isUpper then some ⟨[c1, c2, c3]⟩ else none
  | _ => none

/-- Outcome of the arithmetic on one data row (slicer.py lines 159-183). -/
inductive RowOutcome where
  | record (r : CurrencyRecord)
  | warnSkip
  | crash
deriving DecidableEq, Repr

/-- Arithmetic of slicer.py lines 159-183 on the four extracted amounts:
zero payout keeps a zero exchange rate; tax withheld without sales is
warned about and skipped; otherwise the exchange rate is computed as
`earnings / amount_after_tax` and the tax factor from the pre-tax amount and
the post-tax amount net of adjustments.  `crash` models the uncaught 0/0
`Decimal` division when both the pre-tax amount and the post-tax amount net
of adjustments are zero. -/
def processAmounts (amount_pre_tax adjustments amount_after_tax earnings : ℚ) :
    RowOutcome :=
  if amount_after_tax = 0 then
    .record ⟨0, 1, adjustments⟩
  else
    let amount_after_tax_no_adjustments := amount_after_tax - adjustments
    if amount_pre_tax = 0 ∧ amount_after_tax_no_adjustments ≠ 0 then
      .warnSkip
    else if amount_pre_tax = 0 then
      .crash
    else
      .record ⟨earnings / amount_after_tax,
        1 - |(amount_pre_tax - amount_after_tax_no_adjustments) / amount_pre_tax|,
        adjustments⟩

/-- Fatal conditions of `parse_currency_data`. -/
inductive CErr where
  | pendingReport
  | badColumnCount
  | noCurrencySymbol
  | malformedRow
deriving DecidableEq, Repr

/-- Outcome of one data row (line ≥ 4) of the exchange-rate file. -/
inductive DataOutcome where
  | halt
  | err (e : CErr)
  | record (key : String) (r : CurrencyRecord)
  | skip
deriving DecidableEq, Repr

/-- Column indices of slicer.py lines 92-95, shifted by one when line 3 has a
"Balance" column (lines 120-125). -/
def column_index_amount_pre_tax (shift : ℕ) : ℕ := 3 + shift
def column_index_adjustments (shift : ℕ) : ℕ := 5 + shift
def column_index_amount_after_tax (shift : ℕ) : ℕ := 7 + shift
def column_index_earnings (shift : ℕ) : ℕ := 9 + shift

/-- Body of `parse_currency_data`'s loop for a data row (slicer.py lines
135-183): terminate at a blank first field, extract the currency code,
disambiguate regional USD, read the four amount columns, and run the row
arithmetic. -/
def handleDataRow (shift : ℕ) (fields : List String) : DataOutcome :=
  match fields with
  | [] => .err .malformedRow
  | f0 :: _ =>
    if f0.toList.isEmpty then .halt
    else
      match extractCurrency f0 with
      | none => .err .noCurrencySymbol
      | some c0 =>
        let currency := if c0 = "USD" then tableCurrencyKey f0 else c0
        match getDec fields (column_index_amount_pre_tax shift),
              getDec fields (column_index_adjustments shift),
              getDec fields (column_index_amount_after_tax shift),
              getDec fields (column_index_earnings shift) with
        | some pre, some adj, some post, some earn =>
          match processAmounts pre adj post earn with
          | .record r => .record currency r
          | .warnSkip => .skip
          | .crash => .err .malformedRow
        | _, _, _, _ => .err .malformedRow

/-- Loop of `parse_currency_data` (slicer.py lines 104-183) over the CSV rows,
carrying the 1-based line number, the column shift and the accumulated table.
Line 1 must have 13 columns (10 flags a pending report); a 13-column line 3
shifts all amount columns right by one; data rows start at line 4. -/
def parseLines : List (List String) → ℕ → ℕ → CurrencyTable →
    Except CErr CurrencyTable
  | [], _, _, acc => .ok acc
  | fields :: rest, line, shift, acc =>
    if line = 1 ∧ fields.length = 10 then .error .pendingReport
    else if line = 1 ∧ fields.length ≠ 13 then .error .badColumnCount
    else if line = 3 ∧ fields.length ≠ 12 ∧ fields.length ≠ 13 then
      .error .badColumnCount
    else
      let shift1 := if line = 3 ∧ fields.length = 13 then 1 else shift
      if line < 4 then parseLines rest (line + 1) shift1 acc
      else
        match handleDataRow shift fields with
        | .halt => .ok acc
        | .err e => .error e
        | .record key r => parseLines rest (line + 1) shift (insertA acc key r)
        | .skip => parseLines rest (line + 1) shift acc

/-- `parse_currency_data` (slicer.py lines 85-187) on the list of CSV rows of
the exchange-rate file. -/
def parse_currency_data (rows : List (List String)) : Except CErr CurrencyTable :=
  parseLines rows 1 0 []

/-! Entity directory (apple.py). Only the country codes matter for the claims;
the display names of the source tables are dropped. -/

def australia : List String := ["AU", "NZ"]

def canada : List String := ["CA"]

def europe : List String :=
  ["AF", "AL", "DZ", "AO", "AM", "AT", "AZ", "BH", "BY", "BE", "BJ", "BT",
   "BA", "BW", "BN", "BG", "BF", "KH", "CM", "CV", "TD", "CN", "CD", "CG",
   "CI", "HR", "CY", "CZ", "DK", "EG", "EE", "FJ", "FI", "FR", "GA", "GM",
   "GE", "DE", "GH", "GR", "GW", "HK", "HU", "IS", "IN", "ID", "IQ", "IE",
   "IL", "IT", "JO", "KZ", "KE", "KR", "XK", "KW", "KG", "LA", "LV", "LB",
   "LR", "LY", "LT", "LU", "MO", "MK", "MG", "MW", "MY", "MV", "ML", "MT",
   "MR", "MU", "FM", "MD", "MN", "ME", "MA", "MZ", "MM", "NA", "NR", "NP",
   "NL", "NE", "NG", "NO", "OM", "PK", "PW", "PG", "PH", "PL", "PT", "QA",
   "RO", "RU", "RW", "ST", "SA", "SN", "RS", "SC", "SL", "SG", "SK", "SI",
   "SB", "ZA", "ES", "LK", "SZ", "SE", "CH", "TW", "TJ", "TZ", "TH", "TO",
   "TN", "TR", "TM", "AE", "UG", "UA", "GB", "UZ", "VU", "VN", "YE", "ZM",
   "ZW"]

def japan : List String := ["JP"]

def us : List String :=
  ["AR", "AI", "AG", "BS", "BB", "BZ", "BM", "BO", "BR", "VG", "KY", "CL",
   "CO", "CR", "DM", "DO", "EC", "SV", "GD", "GY", "GT", "HN", "JM", "MX",
   "MS", "NI", "PA", "PY", "PE", "KN", "LC", "VC", "SR", "TT", "TC", "UY",
   "VE", "US"]

/-- `apple.corporation` (apple.py lines 220-227): the Apple subsidiary
handling sales of the given country; `none` models the `LookupError` raised
for an unknown country code. -/
def corporation (cc : String) : Option String :=
  if australia.contains cc then some "AU"
  else if canada.contains cc then some "CA"
  else if europe.contains cc then some "EU"
  else if japan.contains cc then some "JP"
  else if us.contains cc then some "US"
  else none

/-! Sales aggregation (`parse_financial_reports`, slicer.py lines 189-242).
A sales report line is embedded after CSV field lexing: the structure fields
record the tab-separated columns 0, 1, 5, 7, 8, 12 and 17 that the source
extracts from each line (the remaining columns are never read). -/

/-- One lexed line of a sales report file. -/
structure SalesLine where
  dateField : String
  endDateField : String
  quantity : ℤ
  amount : ℚ
  currency : String
  product : String
  country : String
deriving DecidableEq, Repr

/-- Accumulated (quantity, amount) per product. -/
abbrev Products := List (String × (ℤ × ℚ))

/-- Accumulation state of `parse_financial_reports`: the `countries` and
`currencies` dictionaries of slicer.py lines 192-193. -/
structure SalesState where
  countries : List (String × Products)
  currencies : List (String × String)
deriving DecidableEq, Repr

/-- A line is a data line iff its first field contains a date separator
(slicer.py line 204). -/
def isData (l : SalesLine) : Bool :=
  '/' ∈ l.dateField.toList

/-- Loop body of `parse_financial_reports` (slicer.py lines 202-233) for one
line of the report file named `filename`: skip non-data lines, add quantity
and amount to the (country, product) accumulator, and record the country's
currency key (with filename-based regional USD disambiguation). -/
def addLine (filename : String) (st : SalesState) (l : SalesLine) : SalesState :=
  if isData l then
    { countries :=
        updateA st.countries l.country []
          (fun products =>
            updateA products l.product (0, 0)
              (fun qa => (qa.1 + l.quantity, qa.2 + l.amount)))
      currencies :=
        insertA st.currencies l.country (salesCurrencyKey filename l.currency) }
  else st

/-- Name of the exchange-rate file (slicer.py line 46). -/
def currency_data_filename : String := "financial_report.csv"

/-- Regex `.*_[A-Z][A-Z]\.txt$` of slicer.py line 198: the filename ends in
an underscore, two uppercase letters and `.txt`. -/
def isReportName (s : String) : Bool :=
  match s.toList.reverse with
  | 't' :: 'x' :: 't' :: '.' :: b :: a :: '_' :: _ => a.isUpper && b.isUpper
  | _ => false

/-- File filter of slicer.py line 198: skip the exchange-rate file and
anything not matching the report-name pattern. -/
def isReportFile (s : String) : Bool :=
  ¬ s = currency_data_filename && isReportName s

/-- A sales report file: its name and its lexed lines. -/
abbrev SalesFile := String × List SalesLine

/-- Accumulation of `parse_financial_reports` over all files of the working
directory (slicer.py lines 196-235). -/
def parseFilesState (files : List SalesFile) : SalesState :=
  files.foldl
    (fun st f =>
      if isReportFile f.1 then f.2.foldl (addLine f.1) st else st)
    ⟨[], []⟩

/-- `parse_financial_reports` (slicer.py lines 189-242): accumulate, then fail
if no data was read (line 238).  The locale-formatted date range string is
output formatting and is not modelled. -/
def parse_financial_reports (files : List SalesFile) :
    Except Unit SalesState :=
  let st := parseFilesState files
  if st.countries = [] then .error () else .ok st

/-- The data lines of the report files that the accumulator actually
consumes, in scan order. -/
def reportDataRows (files : List SalesFile) : List SalesLine :=
  ((files.filter (fun f => isReportFile f.1)).map
    (fun f => f.2.filter isData)).flatten

/-! Revenue allocation (`corporations_with_sales_by_country`,
`print_sales_by_corporation` and `eu_sales_amount`, slicer.py lines 75-83 and
244-336). -/

/-- Per-entity grouping: entity handle → country → products. -/
abbrev Groups := List (String × List (String × Products))

/-- Loop of `corporations_with_sales_by_country` (slicer.py lines 80-81):
`corporations.setdefault(apple.corporation(country), {})[country] =
sales[country]`, aborting with `LookupError` on an unknown country code. -/
def groupByCorp : List (String × Products) → Groups → Option Groups
  | [], acc => some acc
  | (cc, products) :: rest, acc =>
    match corporation cc with
    | none => none
    | some corp =>
      groupByCorp rest (updateA acc corp [] (fun m => insertA m cc products))

/-- `corporations_with_sales_by_country` (slicer.py lines 75-83). -/
def corporations_with_sales_by_country (sales : List (String × Products)) :
    Option Groups :=
  groupByCorp sales []

/-- Exchange rate and tax factor for a country's currency key: the defaults of
slicer.py lines 263-265 / 317-321 (`Decimal('1.00000')` for both) when the key
is absent from the rate table. -/
def countryRateTax (data : CurrencyTable) (key : String) : ℚ × ℚ :=
  match lookupA data key with
  | none => (1, 1)
  | some r => (r.exchange_rate, r.tax_factor)

/-- Per-product net amount, written exactly as slicer.py line 272:
`amount -= amount - amount * tax_factor`. -/
def netAmount (tax_factor amount : ℚ) : ℚ :=
  amount - (amount - amount * tax_factor)

/-- String comparison used to model `sorted(...)` below. -/
def strLe (a b : String) : Bool :=
  decide (a ≤ b)

/-- Per-corporation total of `print_sales_by_corporation` (slicer.py lines
252-304): sum the per-country net subtotals converted at the country's rate,
then walk the set of distinct currency keys of the corporation's countries
(`sorted({currencies[cc] for cc in ...})`, modelled as `dedup` followed by a
sort) and add each currency's adjustments converted at its own rate, skipping
keys absent from the rate table and zero adjustments. -/
def corporationSum (data : CurrencyTable) (curr : String → String)
    (countries : List (String × Products)) : ℚ :=
  let base := countries.foldl
    (fun s x =>
      let rt := countryRateTax data (curr x.1)
      let country_sum := x.2.foldl (fun cs pr => cs + netAmount rt.2 pr.2.2) 0
      s + country_sum * rt.1)
    0
  let currencies_in_corporation :=
    ((countries.map (fun x => curr x.1)).dedup).mergeSort strLe
  currencies_in_corporation.foldl
    (fun s c =>
      match lookupA data c with
      | none => s
      | some r =>
        if r.adjustments = 0 then s else s + r.adjustments * r.exchange_rate)
    base

/-- Spec-side country subtotal in local currency (spec §4.3): sum of the
per-product net amounts, converted once at the country's exchange rate. -/
def countrySubtotalLocal (data : CurrencyTable) (curr : String → String)
    (x : String × Products) : ℚ :=
  let rt := countryRateTax data (curr x.1)
  ((x.2.map (fun pr => netAmount rt.2 pr.2.2)).sum) * rt.1

/-- Adjustment contribution of one distinct currency key: the adjustment
amount converted at that currency's exchange rate, zero when the key is
absent from the rate table. -/
def adjTerm (data : CurrencyTable) (c : String) : ℚ :=
  match lookupA data c with
  | none => 0
  | some r => r.adjustments * r.exchange_rate

/-- Spec-side entity total (spec §4.3): sum of the countries' local-currency
subtotals plus, for each distinct currency key appearing among the entity's
countries, exactly one application of that currency's converted adjustment. -/
def entityTotalSpec (data : CurrencyTable) (curr : String → String)
    (countries : List (String × Products)) : ℚ :=
  (countries.map (countrySubtotalLocal data curr)).sum
    + (((countries.map (fun x => curr x.1)).dedup).map (adjTerm data)).sum

/-- Body of `eu_sales_amount` for the EU country group (slicer.py lines
311-334): per-product converted net amounts summed, plus once per distinct
currency key the converted adjustments. -/
def euBody (data : CurrencyTable) (curr : String → String)
    (eucs : List (String × Products)) : ℚ :=
  let base := eucs.foldl
    (fun s x =>
      let rt := countryRateTax data (curr x.1)
      x.2.foldl (fun s2 pr => s2 + netAmount rt.2 pr.2.2 * rt.1) s)
    0
  let currencies_in_eu := (eucs.map (fun x => curr x.1)).dedup
  currencies_in_eu.foldl
    (fun s c =>
      match lookupA data c with
      | none => s
      | some r => s + r.adjustments * r.exchange_rate)
    base

/-- `eu_sales_amount` (slicer.py lines 308-336): group sales by corporation,
then read the `'EU'` group; `none` models the `LookupError` of an unknown
country code and the `KeyError` of a missing `'EU'` key. -/
def eu_sales_amount (sales : List (String × Products)) (curr : String → String)
    (data : CurrencyTable) : Option ℚ :=
  match corporations_with_sales_by_country sales with
  | none => none
  | some groups =>
    match lookupA groups "EU" with
    | none => none
    | some eucs => some (euBody data curr eucs)

/-- Fatal conditions of the program entry point. -/
inductive MainErr where
  | currency (e : CErr)
  | noReports
deriving DecidableEq, Repr

/-- Entry point flow of slicer.py lines 396-406: the exchange-rate file is
parsed first (line 398), and only afterwards are the sales report files
scanned (line 400). -/
def mainRun (currencyRows : List (List String)) (files : List SalesFile) :
    Except MainErr (CurrencyTable × SalesState) :=
  match parse_currency_data currencyRows with
  | .error e => .error (.currency e)
  | .ok data =>
    match parse_financial_reports files with
    | .error _ => .error .noReports
    | .ok st => .ok (data, st)

/-- Accumulated (quantity, amount) of a (country, product) pair in the
`countries` dictionary, with the defaults of slicer.py lines 219-220. -/
def salesValue (cs : List (String × Products)) (c p : String) : ℤ × ℚ :=
  match lookupA cs c with
  | none => (0, 0)
  | some products =>
    match lookupA products p with
    | none => (0, 0)
    | some qa => qa

/-- Insertion of the extra "Balance" column of a 13-column exchange-rate file
into a data row, directly before the first amount column (index 3).  Rows
with fewer than three fields are returned unchanged (such rows are malformed
under both layouts). -/
def insertBalance (b : String) : List String → List String
  | f0 :: f1 :: f2 :: rest => f0 :: f1 :: f2 :: b :: rest
  | short => short

/-- Contribution of one report line to the accumulator cell of the pair
(country `c`, product `p`). -/
def rowContribution (c p : String) (l : SalesLine) : ℤ × ℚ :=
  if isData l ∧ l.country = c ∧ l.product = p then (l.quantity, l.amount) else (0, 0)

/-- Sample sales lines and files for concrete evaluation. -/
def lineDE : SalesLine := ⟨"01/01/2024", "01/31/2024", 3, 10, "EUR", "P1", "DE"⟩
def lineDE2 : SalesLine := ⟨"01/01/2024", "01/31/2024", 2, 5, "EUR", "P1", "DE"⟩
def lineFR : SalesLine := ⟨"01/01/2024", "01/31/2024", 1, 7, "EUR", "P2", "FR"⟩
def wfilesA : List SalesFile := [("a_DE.txt", [lineDE, lineDE2]), ("b_FR.txt", [lineFR])]
def wfilesB : List SalesFile := [("b_FR.txt", [lineFR]), ("a_DE.txt", [lineDE2, lineDE])]

/-! Helper lemmas. -/

theorem foldl_add_map {α : Type} (f : α → ℚ) :
    ∀ (l : List α) (a : ℚ), l.foldl (fun s x => s + f x) a = a + (l.map f).sum := by
  intro l
  induction l with
  | nil => simp
  | cons x t ih =>
    intro a
    simp only [List.foldl_cons, List.map_cons, List.sum_cons, ih]
    ring

theorem foldl_adjusted (data : CurrencyTable) :
    ∀ (l : List String) (a : ℚ),
      l.foldl
        (fun s c =>
          match lookupA data c with
          | none => s
          | some r =>
            if r.adjustments = 0 then s else s + r.adjustments * r.exchange_rate)
        a
      = a + (l.map (adjTerm data)).sum := by
  intro l
  induction l with
  | nil => simp
  | cons c t ih =>
    intro a
    simp only [List.foldl_cons, List.map_cons, List.sum_cons, ih]
    rcases h : lookupA data c with _ | r
    · simp [adjTerm, h]
    · by_cases hz : r.adjustments = 0
      · simp [adjTerm, h, hz]
      · simp only [adjTerm, h, if_neg hz]
        ring

theorem foldl_adjusted_eu (data : CurrencyTable) :
    ∀ (l : List String) (a : ℚ),
      l.foldl
        (fun s c =>
          match lookupA data c with
          | none => s
          | some r => s + r.adjustments * r.exchange_rate)
        a
      = a + (l.map (adjTerm data)).sum := by
  intro l
  induction l with
  | nil => simp
  | cons c t ih =>
    intro a
    simp only [List.foldl_cons, List.map_cons, List.sum_cons, ih]
    rcases h : lookupA data c with _ | r
    · simp [adjTerm, h]
    · simp only [adjTerm, h]
      ring

theorem sum_mul_right {α : Type} (f : α → ℚ) (r : ℚ) :
    ∀ (l : List α), (l.map (fun a => f a * r)).sum = (l.map f).sum * r := by
  intro l
  induction l with
  | nil => simp
  | cons x t ih =>
    simp only [List.map_cons, List.sum_cons, ih]
    ring

/-- C1: for every entity, the entity total computed by
`print_sales_by_corporation` equals the sum of its countries' local-currency
subtotals plus, for each distinct currency key appearing among the entity's
countries and present in the rate table, exactly one application of that
currency's adjustment amount multiplied by that currency's exchange rate —
once per distinct currency key, never once per country, for arbitrary country
lists including ones where several countries share a currency key; the
per-country loop of `eu_sales_amount` computes the same total. -/
theorem corporationSum_eq_entityTotalSpec (data : CurrencyTable)
    (curr : String → String) (countries : List (String × Products)) :
    corporationSum data curr countries = entityTotalSpec data curr countries
    ∧ euBody data curr countries = entityTotalSpec data curr countries := by
  constructor
  case right =>
    unfold euBody entityTotalSpec
    dsimp only
    rw [foldl_adjusted_eu data]
    have e1 :
        (fun (s : ℚ) (x : String × Products) =>
          x.2.foldl
            (fun s2 pr =>
              s2 + netAmount (countryRateTax data (curr x.1)).2 pr.2.2
                * (countryRateTax data (curr x.1)).1) s)
        = fun (s : ℚ) (x : String × Products) =>
            s + (x.2.map
              (fun pr =>
                netAmount (countryRateTax data (curr x.1)).2 pr.2.2
                  * (countryRateTax data (curr x.1)).1)).sum := by
      funext s x
      exact foldl_add_map _ x.2 s
    rw [e1]
    have hbase :
        countries.foldl
          (fun (s : ℚ) (x : String × Products) =>
            s + (x.2.map
              (fun pr =>
                netAmount (countryRateTax data (curr x.1)).2 pr.2.2
                  * (countryRateTax data (curr x.1)).1)).sum) 0
        = 0 + (countries.map
            (fun x =>
              (x.2.map
                (fun pr =>
                  netAmount (countryRateTax data (curr x.1)).2 pr.2.2
                    * (countryRateTax data (curr x.1)).1)).sum)).sum :=
      foldl_add_map _ countries 0
    rw [hbase, zero_add]
    have hfun :
        (fun x : String × Products =>
          (x.2.map
            (fun pr =>
              netAmount (countryRateTax data (curr x.1)).2 pr.2.2
                * (countryRateTax data (curr x.1)).1)).sum)
        = countrySubtotalLocal data curr := by
      funext x
      simp only [countrySubtotalLocal]
      exact sum_mul_right _ _ x.2
    rw [hfun]
  unfold corporationSum entityTotalSpec
  dsimp only
  rw [foldl_adjusted data]
  have hbase :
      countries.foldl
        (fun s x =>
          s + x.2.foldl
              (fun cs pr => cs + netAmount (countryRateTax data (curr x.1)).2 pr.2.2) 0
            * (countryRateTax data (curr x.1)).1) 0
      = 0 + (countries.map
          (fun x =>
            x.2.foldl
              (fun cs pr => cs + netAmount (countryRateTax data (curr x.1)).2 pr.2.2) 0
            * (countryRateTax data (curr x.1)).1)).sum :=
    foldl_add_map _ countries 0
  rw [hbase, zero_add]
  have hperm :
      ((((countries.map (fun x => curr x.1)).dedup).mergeSort strLe).map
        (adjTerm data)).sum
      = (((countries.map (fun x => curr x.1)).dedup).map (adjTerm data)).sum :=
    ((List.mergeSort_perm _ strLe).map (adjTerm data)).sum_eq
  rw [hperm]
  have hfun :
      (fun x : String × Products =>
        x.2.foldl
            (fun cs pr => cs + netAmount (countryRateTax data (curr x.1)).2 pr.2.2) 0
          * (countryRateTax data (curr x.1)).1)
      = countrySubtotalLocal data curr := by
    funext x
    simp only [countrySubtotalLocal]
    have hin :
        x.2.foldl
            (fun cs pr => cs + netAmount (countryRateTax data (curr x.1)).2 pr.2.2) 0
        = 0 + (x.2.map (fun pr => netAmount (countryRateTax data (curr x.1)).2 pr.2.2)).sum :=
      foldl_add_map _ x.2 0
    rw [hin, zero_add]
  rw [hfun]

/-- C2 counterexample: the data row with pre-tax amount 10, adjustments 1,
post-tax amount 31 and earnings 5 yields a CurrencyRecord (post-tax amount is
non-zero) whose stored tax factor is −1.  This differs from the claimed
`1 − |pre-tax − post-tax| / pre-tax = −11/10`, and it lies outside `[0, 1]`. -/
theorem processAmounts_tax_factor_counterexample :
    processAmounts 10 1 31 5 = .record ⟨5 / 31, -1, 1⟩
    ∧ ¬ ((-1 : ℚ) = 1 - |(10 : ℚ) - 31| / 10)
    ∧ ¬ ((0 : ℚ) ≤ -1 ∧ (-1 : ℚ) ≤ 1) := by
  refine ⟨?_, ?_, ?_⟩
  · unfold processAmounts
    rw [if_neg (by norm_num : ¬ (31 : ℚ) = 0)]
    dsimp only
    rw [if_neg (by norm_num : ¬ ((10 : ℚ) = 0 ∧ (31 : ℚ) - 1 ≠ 0))]
    rw [if_neg (by norm_num : ¬ (10 : ℚ) = 0)]
    have h1 : ((10 : ℚ) - (31 - 1)) / 10 = -2 := by norm_num
    rw [h1, abs_of_nonpos (by norm_num : (-2 : ℚ) ≤ 0)]
    norm_num
  · rw [abs_of_nonpos (by norm_num : (10 : ℚ) - 31 ≤ 0)]
    norm_num
  · norm_num

/-- C2 (amended): for every data row that yields a CurrencyRecord with
non-zero post-tax amount, the stored tax factor equals
`1 − |pre-tax − (post-tax − adjustments)| / pre-tax`; this value is always at
most 1, and it lies in `[0, 1]` whenever
`|pre-tax − (post-tax − adjustments)| ≤ |pre-tax|`; when no tax data exists
for a currency the tax factor is treated as 1.0. -/
theorem processAmounts_tax_factor (pre adj post earn : ℚ) (r : CurrencyRecord)
    (data : CurrencyTable) (key : String)
    (hpost : post ≠ 0)
    (hrec : processAmounts pre adj post earn = .record r)
    (habsent : lookupA data key = none) :
    r.tax_factor = 1 - |(pre - (post - adj)) / pre|
    ∧ r.tax_factor ≤ 1
    ∧ (|pre - (post - adj)| ≤ |pre| → 0 ≤ r.tax_factor)
    ∧ (countryRateTax data key).2 = 1 := by
  unfold processAmounts at hrec
  rw [if_neg hpost] at hrec
  dsimp only at hrec
  by_cases h1 : pre = 0 ∧ post - adj ≠ 0
  · rw [if_pos h1] at hrec
    exact absurd hrec (by simp)
  by_cases h2 : pre = 0
  · rw [if_neg h1, if_pos h2] at hrec
    exact absurd hrec (by simp)
  · rw [if_neg h1, if_neg h2] at hrec
    have hpre : pre ≠ 0 := h2
    have hr :
        r = (⟨earn / post, 1 - |(pre - (post - adj)) / pre|, adj⟩ : CurrencyRecord) := by
      injection hrec with h
      exact h.symm
    subst hr
    refine ⟨rfl, ?_, ?_, ?_⟩
    · exact sub_le_self 1 (abs_nonneg _)
    · intro hle
      have hposabs : (0 : ℚ) < |pre| := abs_pos.mpr hpre
      have : |(pre - (post - adj)) / pre| ≤ 1 := by
        rw [abs_div]
        exact (div_le_one hposabs).mpr hle
      simp only [CurrencyRecord.tax_factor]
      linarith
    · simp [countryRateTax, habsent]

/-- C2 (amended) witness at the concrete row (pre 4, adjustments 1,
post-tax 3, earnings 6) and the empty rate table. -/
theorem processAmounts_tax_factor_witness :
    (⟨2, 1 / 2, 1⟩ : CurrencyRecord).tax_factor = 1 - |((4 : ℚ) - (3 - 1)) / 4|
    ∧ (⟨2, 1 / 2, 1⟩ : CurrencyRecord).tax_factor ≤ 1
    ∧ (|(4 : ℚ) - (3 - 1)| ≤ |(4 : ℚ)| →
        0 ≤ (⟨2, 1 / 2, 1⟩ : CurrencyRecord).tax_factor)
    ∧ (countryRateTax [] "EUR").2 = 1 :=
  processAmounts_tax_factor 4 1 3 6 ⟨2, 1 / 2, 1⟩ [] "EUR"
    (by norm_num)
    (by
      unfold processAmounts
      rw [if_neg (by norm_num : ¬ (3 : ℚ) = 0)]
      dsimp only
      rw [if_neg (by norm_num : ¬ ((4 : ℚ) = 0 ∧ (3 : ℚ) - 1 ≠ 0))]
      rw [if_neg (by norm_num : ¬ (4 : ℚ) = 0)]
      have h1 : ((4 : ℚ) - (3 - 1)) / 4 = 1 / 2 := by norm_num
      rw [h1, abs_of_nonneg (by norm_num : (0 : ℚ) ≤ 1 / 2)]
      norm_num)
    rfl

/-- C3: for every data row that yields a CurrencyRecord, if the post-tax
amount is non-zero the stored exchange rate equals earnings divided by the
post-tax amount exactly, and if the post-tax amount is exactly zero the stored
exchange rate is zero and the stored tax factor is 1.0. -/
theorem processAmounts_exchange_rate (pre adj post earn : ℚ) (r : CurrencyRecord)
    (hrec : processAmounts pre adj post earn = .record r) :
    (post ≠ 0 → r.exchange_rate = earn / post)
    ∧ (post = 0 → r.exchange_rate = 0 ∧ r.tax_factor = 1) := by
  unfold processAmounts at hrec
  by_cases h0 : post = 0
  · rw [if_pos h0] at hrec
    have hr : r = (⟨0, 1, adj⟩ : CurrencyRecord) := by
      injection hrec with h
      exact h.symm
    subst hr
    exact ⟨fun h => absurd h0 h, fun _ => ⟨rfl, rfl⟩⟩
  · rw [if_neg h0] at hrec
    dsimp only at hrec
    by_cases h1 : pre = 0 ∧ post - adj ≠ 0
    · rw [if_pos h1] at hrec
      exact absurd hrec (by simp)
    by_cases h2 : pre = 0
    · rw [if_neg h1, if_pos h2] at hrec
      exact absurd hrec (by simp)
    · rw [if_neg h1, if_neg h2] at hrec
      have hr :
          r = (⟨earn / post, 1 - |(pre - (post - adj)) / pre|, adj⟩ : CurrencyRecord) := by
        injection hrec with h
        exact h.symm
      subst hr
      exact ⟨fun _ => rfl, fun h => absurd h h0⟩

/-- C3 witness at the concrete rows (pre 4, adjustments 1, post-tax 3,
earnings 6) and (pre 4, adjustments 2, post-tax 0, earnings 0). -/
theorem processAmounts_exchange_rate_witness :
    (((3 : ℚ) ≠ 0 →
        (⟨2, 1 / 2, 1⟩ : CurrencyRecord).exchange_rate = 6 / 3)
      ∧ ((3 : ℚ) = 0 →
        (⟨2, 1 / 2, 1⟩ : CurrencyRecord).exchange_rate = 0
          ∧ (⟨2, 1 / 2, 1⟩ : CurrencyRecord).tax_factor = 1))
    ∧ (((0 : ℚ) ≠ 0 →
        (⟨0, 1, 2⟩ : CurrencyRecord).exchange_rate = 0 / 0)
      ∧ ((0 : ℚ) = 0 →
        (⟨0, 1, 2⟩ : CurrencyRecord).exchange_rate = 0
          ∧ (⟨0, 1, 2⟩ : CurrencyRecord).tax_factor = 1)) :=
  ⟨processAmounts_exchange_rate 4 1 3 6 ⟨2, 1 / 2, 1⟩
    (by
      unfold processAmounts
      rw [if_neg (by norm_num : ¬ (3 : ℚ) = 0)]
      dsimp only
      rw [if_neg (by norm_num : ¬ ((4 : ℚ) = 0 ∧ (3 : ℚ) - 1 ≠ 0))]
      rw [if_neg (by norm_num : ¬ (4 : ℚ) = 0)]
      have h1 : ((4 : ℚ) - (3 - 1)) / 4 = 1 / 2 := by norm_num
      rw [h1, abs_of_nonneg (by norm_num : (0 : ℚ) ≤ 1 / 2)]
      norm_num),
   processAmounts_exchange_rate 4 2 0 0 ⟨0, 1, 2⟩
    (by
      unfold processAmounts
      rw [if_pos rfl])⟩

theorem lookupA_updateA_self {α : Type} (f : α → α) :
    ∀ (l : List (String × α)) (k : String) (d : α),
      lookupA (updateA l k d f) k = some (f ((lookupA l k).getD d)) := by
  intro l
  induction l with
  | nil => intro k d; simp [updateA, lookupA]
  | cons hd t ih =>
    intro k d
    obtain ⟨k0, v0⟩ := hd
    by_cases h : k0 = k
    · simp [updateA, lookupA, h]
    · simp only [updateA, lookupA, if_neg h]
      exact ih k d

theorem lookupA_updateA_ne {α : Type} (f : α → α) :
    ∀ (l : List (String × α)) (k k' : String) (d : α), k' ≠ k →
      lookupA (updateA l k d f) k' = lookupA l k' := by
  intro l
  induction l with
  | nil =>
    intro k k' d hne
    simp [updateA, lookupA, Ne.symm hne]
  | cons hd t ih =>
    intro k k' d hne
    obtain ⟨k0, v0⟩ := hd
    by_cases h : k0 = k
    · subst h
      simp [updateA, lookupA, Ne.symm hne]
    · simp only [updateA, lookupA, if_neg h]
      by_cases h' : k0 = k'
      · simp [h']
      · simp only [if_neg h']
        exact ih k k' d hne

theorem lookupA_insertA_self {α : Type} :
    ∀ (l : List (String × α)) (k : String) (v : α),
      lookupA (insertA l k v) k = some v := by
  intro l
  induction l with
  | nil => intro k v; simp [insertA, lookupA]
  | cons hd t ih =>
    intro k v
    obtain ⟨k0, v0⟩ := hd
    by_cases h : k0 = k
    · simp [insertA, lookupA, h]
    · simp only [insertA, lookupA, if_neg h]
      exact ih k v

theorem lookupA_insertA_ne {α : Type} :
    ∀ (l : List (String × α)) (k k' : String) (v : α), k' ≠ k →
      lookupA (insertA l k v) k' = lookupA l k' := by
  intro l
  induction l with
  | nil =>
    intro k k' v hne
    simp [insertA, lookupA, Ne.symm hne]
  | cons hd t ih =>
    intro k k' v hne
    obtain ⟨k0, v0⟩ := hd
    by_cases h : k0 = k
    · subst h
      simp [insertA, lookupA, Ne.symm hne]
    · simp only [insertA, lookupA, if_neg h]
      by_cases h' : k0 = k'
      · simp [h']
      · simp only [if_neg h']
        exact ih k k' v hne

theorem groupByCorp_none_aux :
    ∀ (sales : List (String × Products)) (acc : Groups) (cc : String),
      cc ∈ sales.map Prod.fst → corporation cc = none →
      groupByCorp sales acc = none := by
  intro sales
  induction sales with
  | nil => intro acc cc h; simp at h
  | cons hd t ih =>
    intro acc cc hmem hnone
    obtain ⟨c0, p0⟩ := hd
    simp only [List.map_cons, List.mem_cons] at hmem
    rcases hmem with heq | hmem
    · subst heq
      simp only [groupByCorp, hnone]
    · cases h2 : corporation c0 with
      | none => simp [groupByCorp, h2]
      | some corp =>
        simp only [groupByCorp, h2]
        exact ih _ cc hmem hnone

theorem groupByCorp_keys_aux :
    ∀ (sales : List (String × Products)) (acc gs : Groups),
      groupByCorp sales acc = some gs → ∀ k, lookupA gs k ≠ none →
      lookupA acc k ≠ none ∨ ∃ cc ∈ sales.map Prod.fst, corporation cc = some k := by
  intro sales
  induction sales with
  | nil =>
    intro acc gs hg k hk
    cases hg
    exact Or.inl hk
  | cons hd t ih =>
    intro acc gs hg k hk
    obtain ⟨c0, p0⟩ := hd
    cases h2 : corporation c0 with
    | none => rw [groupByCorp, h2] at hg; cases hg
    | some corp =>
      rw [groupByCorp, h2] at hg
      rcases ih _ gs hg k hk with hacc | ⟨cc, hcc, hcorp⟩
      · by_cases hkc : k = corp
        · subst hkc
          exact Or.inr ⟨c0, by simp, h2⟩
        · rw [lookupA_updateA_ne _ acc corp k [] hkc] at hacc
          exact Or.inl hacc
      · exact Or.inr ⟨cc, by simp [hcc], hcorp⟩

/-- C4: a country whose currency key is absent from the exchange-rate table
does not make the allocator fail: the defaults are exchange rate 1.0 and tax
factor 1.0, so each product's net amount equals its gross amount and its
local-currency amount equals its gross amount. -/
theorem absent_currency_identity (data : CurrencyTable) (key : String)
    (amount : ℚ) (habsent : lookupA data key = none) :
    countryRateTax data key = (1, 1)
    ∧ netAmount (countryRateTax data key).2 amount = amount
    ∧ netAmount (countryRateTax data key).2 amount * (countryRateTax data key).1
        = amount := by
  have h : countryRateTax data key = (1, 1) := by simp [countryRateTax, habsent]
  rw [h]
  refine ⟨rfl, ?_, ?_⟩ <;> simp [netAmount]

/-- C4 witness: country DE with product P1, gross amount 9.99 and currency
EUR absent from the rate table has net amount 9.99 and local-currency amount
9.99. -/
theorem absent_currency_identity_witness :
    countryRateTax [("JPY", ⟨2, 1, 0⟩)] "EUR" = (1, 1)
    ∧ netAmount (countryRateTax [("JPY", ⟨2, 1, 0⟩)] "EUR").2 (999 / 100)
        = 999 / 100
    ∧ netAmount (countryRateTax [("JPY", ⟨2, 1, 0⟩)] "EUR").2 (999 / 100)
        * (countryRateTax [("JPY", ⟨2, 1, 0⟩)] "EUR").1 = 999 / 100 :=
  absent_currency_identity [("JPY", ⟨2, 1, 0⟩)] "EUR" (999 / 100) rfl

/-- C9: a sales input containing a country code with no legal-entity mapping
makes the partition of countries by entity fail with a lookup error — the
unmapped country's sales are never silently dropped. -/
theorem unmapped_country_aborts (sales : List (String × Products)) (cc : String)
    (hmem : cc ∈ sales.map Prod.fst) (hnone : corporation cc = none) :
    corporations_with_sales_by_country sales = none :=
  groupByCorp_none_aux sales [] cc hmem hnone

/-- C9 witness: a sale for the unknown country code XX aborts the grouping. -/
theorem unmapped_country_aborts_witness :
    corporations_with_sales_by_country [("XX", [("P1", (1, 10))])] = none :=
  unmapped_country_aborts [("XX", [("P1", (1, 10))])] "XX" (by decide) (by decide)

/-- C10: when no country code of the sales input maps to the EU entity,
`eu_sales_amount` fails with a key-lookup error instead of returning 0 — it
presupposes at least one EU-attributed country among the sales. -/
theorem eu_sales_amount_requires_eu (sales : List (String × Products))
    (curr : String → String) (data : CurrencyTable)
    (h : ∀ p ∈ sales, corporation p.1 ≠ some "EU") :
    eu_sales_amount sales curr data = none := by
  cases hg : corporations_with_sales_by_country sales with
  | none => simp [eu_sales_amount, hg]
  | some gs =>
    have heu : lookupA gs "EU" = none := by
      by_contra hne
      rcases groupByCorp_keys_aux sales [] gs hg "EU" hne with hacc | ⟨cc, hcc, hcorp⟩
      · exact hacc rfl
      · rcases List.mem_map.mp hcc with ⟨p, hp, rfl⟩
        exact h p hp hcorp
    simp [eu_sales_amount, hg, heu]

/-- C10 witness: sales attributed only to the US entity make the EU query
fail with a lookup error. -/
theorem eu_sales_amount_requires_eu_witness :
    eu_sales_amount [("US", [("P1", (1, 10))])] (fun _ => "USD") [] = none :=
  eu_sales_amount_requires_eu [("US", [("P1", (1, 10))])] (fun _ => "USD") []
    (by decide)

theorem salesValue_getD (cs : List (String × Products)) (c p : String) :
    salesValue cs c p = (lookupA ((lookupA cs c).getD []) p).getD (0, 0) := by
  cases h : lookupA cs c with
  | none => simp [salesValue, h, lookupA]
  | some products =>
    simp only [salesValue, h, Option.getD_some]
    cases hp : lookupA products p <;> simp

theorem salesValue_updateA (cs : List (String × Products)) (c p c' p' : String)
    (g : ℤ × ℚ → ℤ × ℚ) :
    salesValue (updateA cs c [] (fun products => updateA products p (0, 0) g)) c' p'
      = if c' = c ∧ p' = p then g (salesValue cs c p) else salesValue cs c' p' := by
  by_cases hc : c' = c
  · subst hc
    rw [salesValue_getD, lookupA_updateA_self, Option.getD_some]
    by_cases hp : p' = p
    · subst hp
      rw [lookupA_updateA_self, Option.getD_some, if_pos ⟨rfl, rfl⟩, salesValue_getD]
    · rw [lookupA_updateA_ne _ _ _ _ _ hp, if_neg (by simp [hp]), salesValue_getD]
  · rw [salesValue_getD, lookupA_updateA_ne _ _ _ _ _ hc, if_neg (by simp [hc]),
      salesValue_getD]

theorem salesValue_addLine (fname : String) (st : SalesState) (l : SalesLine)
    (c p : String) :
    salesValue (addLine fname st l).countries c p
      = salesValue st.countries c p + rowContribution c p l := by
  unfold addLine rowContribution
  by_cases hd : isData l
  · rw [if_pos hd]
    dsimp only
    rw [salesValue_updateA]
    by_cases hcp : c = l.country ∧ p = l.product
    · obtain ⟨h1, h2⟩ := hcp
      subst h1
      subst h2
      rw [if_pos ⟨rfl, rfl⟩, if_pos ⟨hd, rfl, rfl⟩]
      exact Prod.ext (by simp) (by simp)
    · rw [if_neg hcp, if_neg (fun h => hcp ⟨h.2.1.symm, h.2.2.symm⟩)]
      rw [show ((0, 0) : ℤ × ℚ) = 0 from rfl, add_zero]
  · rw [if_neg hd, if_neg (fun h => hd h.1)]
    rw [show ((0, 0) : ℤ × ℚ) = 0 from rfl, add_zero]

theorem salesValue_foldLines (fname : String) :
    ∀ (lines : List SalesLine) (st : SalesState) (c p : String),
      salesValue (lines.foldl (addLine fname) st).countries c p
        = salesValue st.countries c p + (lines.map (rowContribution c p)).sum := by
  intro lines
  induction lines with
  | nil => intro st c p; simp
  | cons l t ih =>
    intro st c p
    rw [List.foldl_cons, ih, salesValue_addLine, List.map_cons, List.sum_cons,
      add_assoc, add_comm (rowContribution c p l)]

theorem salesValue_foldFiles :
    ∀ (files : List SalesFile) (st : SalesState) (c p : String),
      salesValue
        (files.foldl
          (fun st f => if isReportFile f.1 then f.2.foldl (addLine f.1) st else st)
          st).countries c p
      = salesValue st.countries c p
        + (((files.filter (fun f => isReportFile f.1)).map
            (fun f => (f.2.map (rowContribution c p)).sum)).sum) := by
  intro files
  induction files with
  | nil => intro st c p; simp
  | cons f t ih =>
    intro st c p
    rw [List.foldl_cons]
    by_cases hf : isReportFile f.1
    · rw [if_pos hf, ih, salesValue_foldLines]
      have hfil : (f :: t).filter (fun f => isReportFile f.1)
          = f :: t.filter (fun f => isReportFile f.1) := by
        simp [List.filter_cons, hf]
      rw [hfil, List.map_cons, List.sum_cons, add_assoc]
    · rw [if_neg hf, ih]
      have hfil : (f :: t).filter (fun f => isReportFile f.1)
          = t.filter (fun f => isReportFile f.1) := by
        simp [List.filter_cons, hf]
      rw [hfil]

theorem rowContribution_sum (c p : String) :
    ∀ (lines : List SalesLine),
      (lines.map (rowContribution c p)).sum
        = (((lines.filter isData).filter
              (fun l => decide (l.country = c) && decide (l.product = p))).map
            (fun l => ((l.quantity, l.amount) : ℤ × ℚ))).sum := by
  intro lines
  induction lines with
  | nil => simp
  | cons l t ih =>
    by_cases hd : isData l
    · have hfil : (l :: t).filter isData = l :: t.filter isData := by
        simp [List.filter_cons, hd]
      by_cases hcp : l.country = c ∧ l.product = p
      · have hfil2 : (l :: t.filter isData).filter
              (fun l => decide (l.country = c) && decide (l.product = p))
            = l :: (t.filter isData).filter
              (fun l => decide (l.country = c) && decide (l.product = p)) := by
          simp [List.filter_cons, hcp.1, hcp.2]
        rw [List.map_cons, List.sum_cons, ih, hfil, hfil2, List.map_cons,
          List.sum_cons, rowContribution, if_pos ⟨hd, hcp⟩]
      · have hfil2 : (l :: t.filter isData).filter
              (fun l => decide (l.country = c) && decide (l.product = p))
            = (t.filter isData).filter
              (fun l => decide (l.country = c) && decide (l.product = p)) := by
          simp only [List.filter_cons, Bool.and_eq_true, decide_eq_true_eq]
          rw [if_neg hcp]
        rw [List.map_cons, List.sum_cons, ih, hfil, hfil2, rowContribution,
          if_neg (fun h => hcp h.2)]
        rw [show ((0, 0) : ℤ × ℚ) = 0 from rfl, zero_add]
    · have hfil : (l :: t).filter isData = t.filter isData := by
        simp [List.filter_cons, hd]
      rw [List.map_cons, List.sum_cons, ih, hfil, rowContribution,
        if_neg (fun h => hd h.1)]
      rw [show ((0, 0) : ℤ × ℚ) = 0 from rfl, zero_add]

theorem pair_sum_components (f : SalesLine → ℤ) (g : SalesLine → ℚ) :
    ∀ (l : List SalesLine),
      (l.map (fun x => ((f x, g x) : ℤ × ℚ))).sum = ((l.map f).sum, (l.map g).sum) := by
  intro l
  induction l with
  | nil => simp
  | cons x t ih => simp [ih, Prod.mk_add_mk]

/-- C5: for every collection of sales files, the accumulated result for each
(country, product) pair is the pair of the sum of that pair's data-row
quantities and the sum of its data-row amounts; and any two file collections
whose data rows are permutations of each other (reordered files, reordered
rows within files) accumulate to the same result for every pair. -/
theorem sales_accumulation (files files2 : List SalesFile) (c p : String)
    (hperm : (reportDataRows files).Perm (reportDataRows files2)) :
    salesValue (parseFilesState files).countries c p
      = ((((reportDataRows files).filter
            (fun l => decide (l.country = c) && decide (l.product = p))).map
            SalesLine.quantity).sum,
         (((reportDataRows files).filter
            (fun l => decide (l.country = c) && decide (l.product = p))).map
            SalesLine.amount).sum)
    ∧ salesValue (parseFilesState files).countries c p
        = salesValue (parseFilesState files2).countries c p := by
  have key : ∀ (fs : List SalesFile),
      salesValue (parseFilesState fs).countries c p
        = (((reportDataRows fs).filter
            (fun l => decide (l.country = c) && decide (l.product = p))).map
            (fun l => ((l.quantity, l.amount) : ℤ × ℚ))).sum := by
    intro fs
    unfold parseFilesState
    rw [salesValue_foldFiles]
    have h0 : salesValue (SalesState.mk [] []).countries c p = 0 := rfl
    rw [h0, zero_add]
    induction fs with
    | nil => simp [reportDataRows]
    | cons f t ih =>
      by_cases hf : isReportFile f.1
      · have hrd : reportDataRows (f :: t) = f.2.filter isData ++ reportDataRows t := by
          simp [reportDataRows, List.filter_cons, hf]
        have hfil : (f :: t).filter (fun f => isReportFile f.1)
            = f :: t.filter (fun f => isReportFile f.1) := by
          simp [List.filter_cons, hf]
        rw [hfil, List.map_cons, List.sum_cons, ih, hrd, List.filter_append,
          List.map_append, List.sum_append, rowContribution_sum]
      · have hrd : reportDataRows (f :: t) = reportDataRows t := by
          simp [reportDataRows, List.filter_cons, hf]
        have hfil : (f :: t).filter (fun f => isReportFile f.1)
            = t.filter (fun f => isReportFile f.1) := by
          simp [List.filter_cons, hf]
        rw [hfil, ih, hrd]
  constructor
  · rw [key files, pair_sum_components]
  · rw [key files, key files2]
    exact ((hperm.filter _).map _).sum_eq

/-- C5 witness: two concrete file sets — the same three data rows with the
files reordered and the rows of one file reordered — accumulate to the same
value for the pair (DE, P1), namely quantity 5 and amount 15. -/
theorem sales_accumulation_witness :
    salesValue (parseFilesState wfilesA).countries "DE" "P1"
      = ((((reportDataRows wfilesA).filter
            (fun l => decide (l.country = "DE") && decide (l.product = "P1"))).map
            SalesLine.quantity).sum,
         (((reportDataRows wfilesA).filter
            (fun l => decide (l.country = "DE") && decide (l.product = "P1"))).map
            SalesLine.amount).sum)
    ∧ salesValue (parseFilesState wfilesA).countries "DE" "P1"
        = salesValue (parseFilesState wfilesB).countries "DE" "P1" :=
  sales_accumulation wfilesA wfilesB "DE" "P1" (by decide)

theorem find?_map_fst (p : String → Bool) (q : String × List String → Bool) :
    ∀ (l : List (String × List String)),
      (∀ rl ∈ l, p rl.1 = q rl) →
      (l.map Prod.fst).find? p = (l.find? q).map Prod.fst := by
  intro l
  induction l with
  | nil => intro _; rfl
  | cons rl t ih =>
    intro h
    have h1 : p rl.1 = q rl := h rl (List.mem_cons_self rl t)
    cases hq : q rl with
    | true =>
      rw [List.map_cons, List.find?_cons_of_pos _ (by rw [h1, hq]),
        List.find?_cons_of_pos _ hq]
      rfl
    | false =>
      rw [List.map_cons, List.find?_cons_of_neg _ (by simp [h1, hq]),
        List.find?_cons_of_neg _ (by simp [hq]),
        ih (fun rl' hrl' => h rl' (List.mem_cons_of_mem rl hrl'))]

/-- C7: whenever the filename-embedded region marker and the localized label
keyword signal the same world region for each region, the sales-side and the
rate-table-side USD disambiguation produce the same composite currency key;
moreover each side always produces a key from
{USD, USDAP, USDLL, USDWW}. -/
theorem usd_key_agreement (filename label : String)
    (h : ∀ rl ∈ usd_regions_localizations,
      strContains filename ("_" ++ rl.1 ++ ".")
        = rl.2.any (fun sp => strContainsLower label sp)) :
    salesCurrencyKey filename "USD" = tableCurrencyKey label
    ∧ salesCurrencyKey filename "USD" ∈ ["USD", "USDAP", "USDLL", "USDWW"]
    ∧ tableCurrencyKey label ∈ ["USD", "USDAP", "USDLL", "USDWW"] := by
  have hfind :
      regionTags.find? (fun r => strContains filename ("_" ++ r ++ "."))
        = (usd_regions_localizations.find?
            (fun rl => rl.2.any (fun sp => strContainsLower label sp))).map
            Prod.fst :=
    find?_map_fst _ _ usd_regions_localizations h
  refine ⟨?_, ?_, ?_⟩
  · unfold salesCurrencyKey tableCurrencyKey
    rw [if_pos rfl, hfind]
    cases usd_regions_localizations.find?
        (fun rl => rl.2.any (fun sp => strContainsLower label sp)) with
    | none => rfl
    | some rl => rfl
  · unfold salesCurrencyKey
    rw [if_pos rfl]
    cases hf : regionTags.find? (fun r => strContains filename ("_" ++ r ++ ".")) with
    | none => decide
    | some r =>
      have hr := List.mem_of_find?_eq_some hf
      have hr' : r = "AP" ∨ r = "LL" ∨ r = "WW" := by
        simpa [regionTags, usd_regions_localizations] using hr
      rcases hr' with rfl | rfl | rfl <;> decide
  · unfold tableCurrencyKey
    cases hf : usd_regions_localizations.find?
        (fun rl => rl.2.any (fun sp => strContainsLower label sp)) with
    | none => decide
    | some rl =>
      have hr := List.mem_of_find?_eq_some hf
      have hr' : rl.1 = "AP" ∨ rl.1 = "LL" ∨ rl.1 = "WW" := by
        rcases (by simpa [usd_regions_localizations] using hr :
            rl = ("AP", ["Pacif", "Pacíf", "Pazif"])
            ∨ rl = ("LL", ["Latin", "Latein"])
            ∨ rl = ("WW", ["of World", "du monde", "der Welt", "del mondo",
                "del mundo"])) with h | h | h <;> rw [h] <;> simp
      show ("USD" ++ rl.1) ∈ ["USD", "USDAP", "USDLL", "USDWW"]
      rcases hr' with h | h | h <;> rw [h] <;> decide

/-- C7 witness: the filename `sales_AP.txt` and the label
`South Asia and Pacific (USD)` signal the same region on both sides and
produce the composite key USDAP on each. -/
theorem usd_key_agreement_witness :
    salesCurrencyKey "sales_AP.txt" "USD"
        = tableCurrencyKey "South Asia and Pacific (USD)"
    ∧ salesCurrencyKey "sales_AP.txt" "USD" ∈ ["USD", "USDAP", "USDLL", "USDWW"]
    ∧ tableCurrencyKey "South Asia and Pacific (USD)"
        ∈ ["USD", "USDAP", "USDLL", "USDWW"] :=
  usd_key_agreement "sales_AP.txt" "South Asia and Pacific (USD)" (by decide)

/-- C8: a 10-column first row of the exchange-rate file aborts the run as a
pending report, and the abort is independent of the sales files — they are
never consulted; any first-row column count other than 13 (and 10) aborts as
an invalid column count. -/
theorem pending_report_aborts (r1 : List String) (rest : List (List String))
    (files files2 : List SalesFile) :
    (r1.length = 10 →
      mainRun (r1 :: rest) files = .error (.currency .pendingReport)
      ∧ mainRun (r1 :: rest) files = mainRun (r1 :: rest) files2)
    ∧ (r1.length ≠ 13 → r1.length ≠ 10 →
      mainRun (r1 :: rest) files = .error (.currency .badColumnCount)) := by
  constructor
  · intro h10
    have hp : parse_currency_data (r1 :: rest) = .error .pendingReport := by
      unfold parse_currency_data
      rw [parseLines, if_pos ⟨rfl, h10⟩]
    constructor
    · unfold mainRun
      rw [hp]
    · unfold mainRun
      rw [hp]
  · intro h13 h10
    have hp : parse_currency_data (r1 :: rest) = .error .badColumnCount := by
      unfold parse_currency_data
      rw [parseLines, if_neg (fun hh => h10 hh.2), if_pos ⟨rfl, h13⟩]
    unfold mainRun
    rw [hp]

/-- C8 witness at a concrete 10-column first row (pending report, sales files
irrelevant) and a concrete 9-column first row (invalid column count). -/
theorem pending_report_aborts_witness :
    (mainRun [["a", "b", "c", "d", "e", "f", "g", "h", "i", "j"]] []
        = .error (.currency .pendingReport)
      ∧ mainRun [["a", "b", "c", "d", "e", "f", "g", "h", "i", "j"]] []
        = mainRun [["a", "b", "c", "d", "e", "f", "g", "h", "i", "j"]]
            [("x_DE.txt", [lineDE])])
    ∧ mainRun [["a", "b", "c", "d", "e", "f", "g", "h", "i"]] []
        = .error (.currency .badColumnCount) :=
  ⟨(pending_report_aborts ["a", "b", "c", "d", "e", "f", "g", "h", "i", "j"] []
      [] [("x_DE.txt", [lineDE])]).1 (by decide),
   (pending_report_aborts ["a", "b", "c", "d", "e", "f", "g", "h", "i"] []
      [] []).2 (by decide) (by decide)⟩

theorem getDec_cons_succ (f : String) (fields : List String) (i : ℕ) :
    getDec (f :: fields) (i + 1) = getDec fields i := by
  simp [getDec, List.getElem?_cons_succ]

theorem handleDataRow_insertBalance (b f0 f1 f2 : String) (rest : List String) :
    handleDataRow 1 (insertBalance b (f0 :: f1 :: f2 :: rest))
      = handleDataRow 0 (f0 :: f1 :: f2 :: rest) := by
  show handleDataRow 1 (f0 :: f1 :: f2 :: b :: rest)
      = handleDataRow 0 (f0 :: f1 :: f2 :: rest)
  have g : ∀ j : ℕ, 3 ≤ j →
      getDec (f0 :: f1 :: f2 :: b :: rest) (j + 1)
        = getDec (f0 :: f1 :: f2 :: rest) j := by
    intro j hj
    obtain ⟨k, rfl⟩ : ∃ k, j = k + 3 := ⟨j - 3, by omega⟩
    have l1 : getDec (f0 :: f1 :: f2 :: b :: rest) (k + 3 + 1) = getDec rest k := by
      rw [show k + 3 + 1 = k + 1 + 1 + 1 + 1 from by omega,
        getDec_cons_succ f0 (f1 :: f2 :: b :: rest) (k + 1 + 1 + 1),
        getDec_cons_succ f1 (f2 :: b :: rest) (k + 1 + 1),
        getDec_cons_succ f2 (b :: rest) (k + 1),
        getDec_cons_succ b rest k]
    have l2 : getDec (f0 :: f1 :: f2 :: rest) (k + 3) = getDec rest k := by
      rw [show k + 3 = k + 1 + 1 + 1 from by omega,
        getDec_cons_succ f0 (f1 :: f2 :: rest) (k + 1 + 1),
        getDec_cons_succ f1 (f2 :: rest) (k + 1),
        getDec_cons_succ f2 rest k]
    rw [l1, l2]
  unfold handleDataRow
  rw [show column_index_amount_pre_tax 1 = column_index_amount_pre_tax 0 + 1
      from rfl,
    show column_index_adjustments 1 = column_index_adjustments 0 + 1 from rfl,
    show column_index_amount_after_tax 1 = column_index_amount_after_tax 0 + 1
      from rfl,
    show column_index_earnings 1 = column_index_earnings 0 + 1 from rfl,
    g _ (by norm_num [column_index_amount_pre_tax]),
    g _ (by norm_num [column_index_adjustments]),
    g _ (by norm_num [column_index_amount_after_tax]),
    g _ (by norm_num [column_index_earnings])]

theorem parseLines_data (fields : List String) (rest : List (List String))
    (n shift : ℕ) (acc : CurrencyTable) (hn : 4 ≤ n) :
    parseLines (fields :: rest) n shift acc
      = match handleDataRow shift fields with
        | .halt => .ok acc
        | .err e => .error e
        | .record key r => parseLines rest (n + 1) shift (insertA acc key r)
        | .skip => parseLines rest (n + 1) shift acc := by
  have hn1 : ¬ n = 1 := by omega
  have hn3 : ¬ n = 3 := by omega
  have hn4 : ¬ n < 4 := by omega
  rw [parseLines, if_neg (fun hh => hn1 hh.1), if_neg (fun hh => hn1 hh.1),
    if_neg (fun hh => hn3 hh.1)]
  dsimp only
  rw [if_neg hn4]

theorem parseLines_shift_equiv (b : String) :
    ∀ (ds : List (List String)) (n : ℕ) (acc : CurrencyTable), 4 ≤ n →
      (∀ r ∈ ds, r.length = 12) →
      parseLines (ds.map (insertBalance b)) n 1 acc = parseLines ds n 0 acc := by
  intro ds
  induction ds with
  | nil => intro n acc _ _; rfl
  | cons r t ih =>
    intro n acc hn hlen
    have hr : r.length = 12 := hlen r (List.mem_cons_self r t)
    obtain ⟨f0, f1, f2, rest, rfl⟩ :
        ∃ f0 f1 f2 rest, r = f0 :: f1 :: f2 :: rest := by
      match r, hr with
      | a :: c :: d :: e, _ => exact ⟨a, c, d, e, rfl⟩
    rw [List.map_cons, parseLines_data _ _ _ _ _ hn, parseLines_data _ _ _ _ _ hn,
      handleDataRow_insertBalance]
    have hlen' : ∀ x ∈ t, x.length = 12 :=
      fun x hx => hlen x (List.mem_cons_of_mem _ hx)
    cases handleDataRow 0 (f0 :: f1 :: f2 :: rest) with
    | halt => rfl
    | err e => rfl
    | record key rec => exact ih (n + 1) (insertA acc key rec) (by omega) hlen'
    | skip => exact ih (n + 1) acc (by omega) hlen'

theorem parseLines_headers (r1 r2 r3 : List String) (ds : List (List String))
    (h1 : r1.length = 13) :
    parse_currency_data (r1 :: r2 :: r3 :: ds)
      = if r3.length = 12 ∨ r3.length = 13 then
          parseLines ds 4 (if r3.length = 13 then 1 else 0) []
        else .error .badColumnCount := by
  by_cases h13 : r3.length = 13 <;> by_cases h12 : r3.length = 12 <;>
    simp [parse_currency_data, parseLines, h1, h12, h13]

/-- C6: when row 3 of the exchange-rate file has 13 fields, each numeric
column index used for subsequent rows is exactly one greater than in the
12-field case; a row-3 width other than 12 or 13 is fatal; and parsing the
same data-row content under either layout (the 13-column rows being the
12-column rows with the extra balance field inserted) produces identical
currency records. -/
theorem balance_column_layout (r1 r2 r3a r3b : List String)
    (ds : List (List String)) (b : String)
    (h1 : r1.length = 13) (h3a : r3a.length = 12) (h3b : r3b.length = 13)
    (hds : ∀ r ∈ ds, r.length = 12) :
    (column_index_amount_pre_tax 1 = column_index_amount_pre_tax 0 + 1
      ∧ column_index_adjustments 1 = column_index_adjustments 0 + 1
      ∧ column_index_amount_after_tax 1 = column_index_amount_after_tax 0 + 1
      ∧ column_index_earnings 1 = column_index_earnings 0 + 1)
    ∧ (∀ r3 : List String, r3.length ≠ 12 → r3.length ≠ 13 →
        parse_currency_data (r1 :: r2 :: r3 :: ds) = .error .badColumnCount)
    ∧ parse_currency_data (r1 :: r2 :: r3b :: ds.map (insertBalance b))
        = parse_currency_data (r1 :: r2 :: r3a :: ds) := by
  refine ⟨⟨rfl, rfl, rfl, rfl⟩, ?_, ?_⟩
  · intro r3 h12 h13
    rw [parseLines_headers r1 r2 r3 ds h1,
      if_neg (fun hh => hh.elim h12 h13)]
  · rw [parseLines_headers r1 r2 r3b _ h1, parseLines_headers r1 r2 r3a _ h1,
      if_pos (Or.inr h3b), if_pos (Or.inl h3a), if_pos h3b,
      if_neg (by rw [h3a]; decide)]
    exact parseLines_shift_equiv b ds 4 [] (by norm_num) hds

/-- C6 witness: a concrete 12-column file and its 13-column balance variant
parse to the same currency table, a concrete 11-column row 3 is fatal, and
the column indices shift by one. -/
theorem balance_column_layout_witness :
    (column_index_amount_pre_tax 1 = column_index_amount_pre_tax 0 + 1
      ∧ column_index_adjustments 1 = column_index_adjustments 0 + 1
      ∧ column_index_amount_after_tax 1 = column_index_amount_after_tax 0 + 1
      ∧ column_index_earnings 1 = column_index_earnings 0 + 1)
    ∧ (∀ r3 : List String, r3.length ≠ 12 → r3.length ≠ 13 →
        parse_currency_data
          (["c01", "c02", "c03", "c04", "c05", "c06", "c07", "c08", "c09",
            "c10", "c11", "c12", "c13"]
            :: ["x"] :: r3
            :: [["Euro-Zone (EUR)", "f1", "f2", "100", "f4", "0", "f6", "90",
                "f8", "81", "f10", "f11"]])
          = .error .badColumnCount)
    ∧ parse_currency_data
        (["c01", "c02", "c03", "c04", "c05", "c06", "c07", "c08", "c09",
          "c10", "c11", "c12", "c13"]
          :: ["x"]
          :: ["h01", "h02", "h03", "h04", "h05", "h06", "h07", "h08", "h09",
              "h10", "h11", "h12", "h13"]
          :: [["Euro-Zone (EUR)", "f1", "f2", "bal", "100", "f4", "0", "f6",
              "90", "f8", "81", "f10", "f11"]])
      = parse_currency_data
        (["c01", "c02", "c03", "c04", "c05", "c06", "c07", "c08", "c09",
          "c10", "c11", "c12", "c13"]
          :: ["x"]
          :: ["h01", "h02", "h03", "h04", "h05", "h06", "h07", "h08", "h09",
              "h10", "h11", "h12"]
          :: [["Euro-Zone (EUR)", "f1", "f2", "100", "f4", "0", "f6", "90",
              "f8", "81", "f10", "f11"]]) :=
  balance_column_layout
    ["c01", "c02", "c03", "c04", "c05", "c06", "c07", "c08", "c09", "c10",
      "c11", "c12", "c13"]
    ["x"]
    ["h01", "h02", "h03", "h04", "h05", "h06", "h07", "h08", "h09", "h10",
      "h11", "h12"]
    ["h01", "h02", "h03", "h04", "h05", "h06", "h07", "h08", "h09", "h10",
      "h11", "h12", "h13"]
    [["Euro-Zone (EUR)", "f1", "f2", "100", "f4", "0", "f6", "90", "f8",
      "81", "f10", "f11"]]
    "bal"
    (by decide) (by decide) (by decide) (by decide)

end Slicer
